import Mathlib

/- Verification of the VaR estimators in src/portrisk/risk.py against the
   specification.

   Shallow embedding conventions. Real numbers are modelled as rationals.
   A Python float expression whose value is non-finite (NaN or an
   infinity), and a call that aborts with an exception instead of
   returning, are both modelled as the value none of Option ℚ; a returned
   finite value v is modelled as some v.

   The transcendental kernels that the code delegates to the numerical
   library (the square root inside numpy.std, the finite branch of the
   standard normal inverse CDF, the GPD maximum-likelihood fit and the
   finite branch of the GPD inverse CDF) have no algebraic definition over
   the rationals; each definition below takes them as explicit function
   parameters, and the theorems quantify over them. The domain structure
   of those kernels, that is where the library returns NaN or an infinity,
   is transcribed into the embedding itself. -/

namespace PortRisk

/-- Population mean, numpy.mean: sum divided by N. The code applies it
only to a nonempty sample; on the empty list the real call yields NaN and
the embedding of each caller returns none there. -/
def cfMean (l : List ℚ) : ℚ := l.sum / l.length

/-- Central moment of order k with the population (divide by N)
convention, as computed inside numpy.std and inside scipy.stats skew and
kurtosis. -/
def centralMoment (k : ℕ) (l : List ℚ) : ℚ :=
  ((l.map fun x => (x - cfMean l) ^ k).sum) / l.length

/-- Domain structure of scipy.stats.norm.ppf: finite exactly on the open
interval (0, 1). The values at 0 and 1 are infinities and arguments
outside [0, 1] give NaN; all of these are modelled as none, since in
every call site of the code a non-finite quantile makes the final result
non-finite. The finite branch is the abstract kernel body. -/
def norm_ppf (body : ℚ → ℚ) (p : ℚ) : Option ℚ :=
  if 0 < p ∧ p < 1 then some (body p) else none

/-- Embedding of cornish_fisher_var from src/portrisk/risk.py.

    sqrtK is the square-root kernel: numpy.std returns the square root of
    the second central moment, and the denominators of skew and kurtosis
    are the powers m2 ** 1.5 and m2 ** 2, written here through the same
    kernel. normBody is the finite branch of the standard normal inverse
    CDF at alpha.

    When the second central moment is zero, scipy.stats.skew and
    scipy.stats.kurtosis return NaN (SciPy 1.9 and later); NaN propagates
    through z_cf, and since NaN times zero is NaN it survives the final
    product with sigma, so the result is NaN: modelled as none. An empty
    input produces NaN already at numpy.mean. When alpha lies outside
    (0, 1) the quantile z is non-finite and the final result is
    non-finite in every case. The code itself performs no validation and
    raises no typed error anywhere. -/
def cornish_fisher_var (sqrtK : ℚ → ℚ) (normBody : ℚ → ℚ)
    (returns : List ℚ) (alpha : ℚ) : Option ℚ :=
  if returns = [] then none else
  match norm_ppf normBody alpha with
  | none => none
  | some z =>
    if centralMoment 2 returns = 0 then none
    else
      let mean := cfMean returns
      let sigma := sqrtK (centralMoment 2 returns)
      let skew := centralMoment 3 returns / sigma ^ 3
      let kurt := centralMoment 4 returns / (centralMoment 2 returns) ^ 2 - 3
      let z_cf := z + (1/6) * (z ^ 2 - 1) * skew
        + (1/24) * (z ^ 3 - 3 * z) * kurt
        - (1/36) * (2 * z ^ 3 - 5 * z) * skew ^ 2
      some (-(mean + z_cf * sigma))

/-- Insertion step of an ascending sort. -/
def insertSorted (x : ℚ) : List ℚ → List ℚ
  | [] => [x]
  | y :: ys => if x ≤ y then x :: y :: ys else y :: insertSorted x ys

/-- Ascending sort of a sample, the order numpy.percentile works on. -/
def sortAsc (l : List ℚ) : List ℚ := l.foldr insertSorted []

/-- Linear-interpolation 95th percentile, numpy.percentile(losses, 95)
with the default method: with the sample sorted ascending and
h = (19/20) * (n - 1), interpolate between the entries at positions
floor h and floor h + 1 (clamped to the last entry). -/
def percentile95 (l : List ℚ) : ℚ :=
  let s := sortAsc l
  let n := s.length
  let h : ℚ := (19/20) * ((n : ℚ) - 1)
  let i := (⌊h⌋).toNat
  let lo := s.getD i 0
  let hi := s.getD (min (i + 1) (n - 1)) 0
  lo + (h - (i : ℚ)) * (hi - lo)

/-- Losses are the negated returns: losses = -returns. -/
def potLosses (returns : List ℚ) : List ℚ := returns.map fun r => -r

/-- Excesses over the threshold, transcribing
losses[losses > threshold] - threshold: the losses strictly above the
threshold, each shifted down by it. A loss exactly equal to the
threshold is excluded by the strict comparison. -/
def potExcesses (losses : List ℚ) (th : ℚ) : List ℚ :=
  (losses.filter fun l => decide (th < l)).map fun l => l - th

/-- Effective threshold of pot_var: the argument when supplied, else the
95th percentile of the losses. -/
def potThreshold (returns : List ℚ) (threshold : Option ℚ) : ℚ :=
  threshold.getD (percentile95 (potLosses returns))

/-- Tail probability handed to the GPD inverse CDF, step 7 of the POT
algorithm: with prob_exceed = n_excess / n_total, the value
(alpha - (1 - prob_exceed)) / prob_exceed. -/
def potTailProb (returns : List ℚ) (th alpha : ℚ) : ℚ :=
  let pe : ℚ := ((potExcesses (potLosses returns) th).length : ℚ)
    / ((potLosses returns).length : ℚ)
  (alpha - (1 - pe)) / pe

/-- Domain structure of scipy.stats.genpareto.ppf with location 0: on
[0, 1) the value is finite and given by the abstract kernel body; at 1
the value is the right endpoint of the support, finite (minus scale over
c) only for a negative shape and an infinity otherwise; outside [0, 1]
the value is NaN. Non-finite values are modelled as none. -/
def genpareto_ppf (body : ℚ → ℚ → ℚ → ℚ) (p c scale : ℚ) : Option ℚ :=
  if 0 ≤ p ∧ p < 1 then some (body p c scale)
  else if p = 1 ∧ c < 0 then some (-(scale / c))
  else none

/-- Embedding of pot_var from src/portrisk/risk.py.

    fitK is the GPD maximum-likelihood fit with location fixed at 0,
    returning the shape and the scale; gBody is the finite branch of the
    GPD inverse CDF.

    With zero excesses the real call does not return a value: it aborts
    with an untyped exception (scipy rejects the degenerate empty fit,
    and prob_exceed = 0 makes the tail probability a division by zero);
    this is modelled as none. The code raises no typed error of its own.
    A NaN coming out of the inverse CDF propagates through
    -(threshold + quantile), hence the final Option.map. -/
def pot_var (fitK : List ℚ → ℚ × ℚ) (gBody : ℚ → ℚ → ℚ → ℚ)
    (returns : List ℚ) (threshold : Option ℚ) (alpha : ℚ) : Option ℚ :=
  let th := potThreshold returns threshold
  let excesses := potExcesses (potLosses returns) th
  if excesses = [] then none
  else
    let cs := fitK excesses
    (genpareto_ppf gBody (potTailProb returns th alpha) cs.1 cs.2).map
      fun q => -(th + q)

/-- Formula of the spec, section 4.1, written exactly as the spec states
it as a function of the moments and the normal quantile: the adjusted
quantile z_cf and the final value -(mu + z_cf * sigma). Kept separate
from the embedding of the code so the two can be compared. -/
def cornishFisherSpecFormula (mu sigma skew kurt z : ℚ) : ℚ :=
  -(mu + (z + (1/6) * (z ^ 2 - 1) * skew
      + (1/24) * (z ^ 3 - 3 * z) * kurt
      - (1/36) * (2 * z ^ 3 - 5 * z) * skew ^ 2) * sigma)

/-- Concrete return series of the concrete scenario in section 8 of the
spec: 0.01, -0.02, 0.015, -0.01, 0.02, -0.03, 0.005, 0.01, -0.015,
0.025 as exact rationals. -/
def scenarioReturns : List ℚ :=
  [1/100, -1/50, 3/200, -1/100, 1/50, -3/100, 1/200, 1/100, -3/200, 1/40]

end PortRisk

namespace PortRisk

/-- Helper: the GPD inverse CDF is non-finite (NaN) at every probability
outside [0, 1]. -/
theorem genpareto_ppf_eq_none (body : ℚ → ℚ → ℚ → ℚ) (p c scale : ℚ)
    (hp : p < 0 ∨ 1 < p) : genpareto_ppf body p c scale = none := by
  have h1 : ¬(0 ≤ p ∧ p < 1) := by
    rintro ⟨ha, hb⟩; rcases hp with hp | hp <;> linarith
  have h2 : ¬(p = 1 ∧ c < 0) := by
    rintro ⟨ha, _⟩; rcases hp with hp | hp <;> rw [ha] at hp <;> linarith
  simp only [genpareto_ppf, if_neg h1, if_neg h2]

/-- Helper: whenever the tail probability of step 7 falls outside [0, 1],
pot_var propagates the non-finite inverse CDF value and yields none,
whatever the fit kernel and the inverse CDF body are. -/
theorem pot_var_eq_none_of_tail_outside (fitK : List ℚ → ℚ × ℚ)
    (gBody : ℚ → ℚ → ℚ → ℚ) (returns : List ℚ) (threshold : Option ℚ)
    (alpha : ℚ)
    (hp : potTailProb returns (potThreshold returns threshold) alpha < 0 ∨
      1 < potTailProb returns (potThreshold returns threshold) alpha) :
    pot_var fitK gBody returns threshold alpha = none := by
  unfold pot_var
  by_cases hex : potExcesses (potLosses returns) (potThreshold returns threshold) = []
  · simp [hex]
  · simp [hex, genpareto_ppf_eq_none _ _ _ _ hp]

/-- Helper: the second central moment of a one-element sample is zero. -/
theorem centralMoment_two_singleton (x : ℚ) : centralMoment 2 [x] = 0 := by
  simp [centralMoment, cfMean]

/-- Helper: the standard normal inverse CDF is non-finite outside the
open interval (0, 1). -/
theorem norm_ppf_eq_none (body : ℚ → ℚ) (p : ℚ) (hp : p ≤ 0 ∨ 1 ≤ p) :
    norm_ppf body p = none := by
  unfold norm_ppf
  rw [if_neg]
  rintro ⟨h1, h2⟩; rcases hp with hp | hp <;> linarith

/-- Helper: the second central moment of a constant sample is zero. -/
theorem centralMoment_two_replicate (n : ℕ) (k : ℚ) (hn : n ≠ 0) :
    centralMoment 2 (List.replicate n k) = 0 := by
  have hmean : cfMean (List.replicate n k) = k := by
    simp [cfMean, List.sum_replicate, nsmul_eq_mul]
    field_simp
  simp [centralMoment, hmean, List.map_replicate, List.sum_replicate]

/-- Helper: the default threshold of the concrete scenario, the 95th
percentile of its losses, is exactly 51/2000 = 0.0255. -/
theorem scenario_threshold : potThreshold scenarioReturns none = 51/2000 := by
  norm_num [potThreshold, percentile95, sortAsc, insertSorted, potLosses, scenarioReturns,
    show ((8:ℤ)).toNat = 8 from rfl, List.getD]

/-- Helper: at threshold 51/2000 the concrete scenario has one excess out
of ten losses, so the tail probability of step 7 is
(1/20 - 9/10) / (1/10) = -17/2. -/
theorem scenario_tail_prob : potTailProb scenarioReturns (51/2000) (1/20) = -17/2 := by
  norm_num [potTailProb, potExcesses, potLosses, scenarioReturns]

/-- C1: for every call of pot_var in which the tail probability
p = (alpha - (1 - prob_exceed)) / prob_exceed of step 7 falls outside
[0, 1], the code does NOT fail with a typed InvalidTailProbability
error: it feeds p to the GPD inverse CDF, receives NaN, and returns the
non-finite value -(threshold + NaN), modelled as none. This theorem
documents the actual behaviour that contradicts the claim; no error type
exists anywhere in the code. -/
theorem c1_pot_var_tail_prob_outside_gives_nonfinite (fitK : List ℚ → ℚ × ℚ)
    (gBody : ℚ → ℚ → ℚ → ℚ) (returns : List ℚ) (threshold : Option ℚ)
    (alpha : ℚ)
    (hp : potTailProb returns (potThreshold returns threshold) alpha < 0 ∨
      1 < potTailProb returns (potThreshold returns threshold) alpha) :
    pot_var fitK gBody returns threshold alpha = none :=
  pot_var_eq_none_of_tail_outside fitK gBody returns threshold alpha hp

/-- C1 witness: a sample of one return -1 with threshold 0 and alpha 2
has tail probability 2 > 1, and pot_var returns none. -/
theorem c1_witness :
    (1 < potTailProb [-1] (potThreshold [-1] (some 0)) 2) ∧
      pot_var (fun _ => (1, 1)) (fun _ _ _ => 0) [-1] (some 0) 2 = none := by
  have h : (1:ℚ) < potTailProb [-1] (potThreshold [-1] (some 0)) 2 := by
    norm_num [potTailProb, potExcesses, potLosses, potThreshold]
  exact ⟨h, c1_pot_var_tail_prob_outside_gives_nonfinite _ _ _ _ _ (Or.inr h)⟩

/-- C2 counterexample: on the concrete scenario series with alpha = 1/20
and the default threshold, pot_var does not return a finite float: the
tail probability is -17/2, the GPD inverse CDF gives NaN, and the result
is non-finite (none), here evaluated with concrete stand-ins for the fit
and inverse CDF kernels (the amended theorem shows the kernels are
irrelevant). -/
theorem c2_counterexample_scenario_not_finite :
    pot_var (fun _ => (1, 1)) (fun _ _ _ => 0) scenarioReturns none (1/20) = none := by
  apply pot_var_eq_none_of_tail_outside
  left
  rw [scenario_threshold, scenario_tail_prob]
  norm_num

/-- C2 amended: on the concrete scenario series with alpha = 1/20, the
default-threshold call and the call with the threshold passed explicitly
as the 95th-percentile loss 51/2000 produce identical results, but that
result is the non-finite NaN (none), not a finite float, for every fit
kernel and every inverse CDF kernel: the tail probability is -17/2,
outside [0, 1]. -/
theorem c2_scenario_both_calls_nonfinite_and_equal (fitK : List ℚ → ℚ × ℚ)
    (gBody : ℚ → ℚ → ℚ → ℚ) :
    pot_var fitK gBody scenarioReturns none (1/20) = none ∧
      pot_var fitK gBody scenarioReturns (some (51/2000)) (1/20) = none := by
  constructor
  · apply pot_var_eq_none_of_tail_outside
    left
    rw [scenario_threshold, scenario_tail_prob]
    norm_num
  · apply pot_var_eq_none_of_tail_outside
    left
    have h : potThreshold scenarioReturns (some (51/2000)) = 51/2000 := rfl
    rw [h, scenario_tail_prob]
    norm_num

/-- C3: for every input with fewer than 2 elements, and for every alpha
outside (0, 1), cornish_fisher_var does NOT fail with a typed
InvalidInput error: the code performs no validation and returns a
non-finite value (none) in all these cases - NaN from the moments of an
empty or one-element sample, or a non-finite normal quantile. This
theorem documents the actual behaviour that contradicts the claim. -/
theorem c3_cornish_fisher_no_invalid_input_error (sqrtK normBody : ℚ → ℚ)
    (returns : List ℚ) (alpha : ℚ)
    (h : returns.length < 2 ∨ alpha ≤ 0 ∨ 1 ≤ alpha) :
    cornish_fisher_var sqrtK normBody returns alpha = none := by
  rcases h with hlen | halpha
  · rcases returns with _ | ⟨x, _ | ⟨y, t⟩⟩
    · simp [cornish_fisher_var]
    · cases hn : norm_ppf normBody alpha <;>
        simp [cornish_fisher_var, hn, centralMoment_two_singleton]
    · simp at hlen; omega
  · have hppf : norm_ppf normBody alpha = none := norm_ppf_eq_none normBody alpha halpha
    rcases returns with _ | ⟨x, xs⟩
    · simp [cornish_fisher_var]
    · simp [cornish_fisher_var, hppf]

/-- C3 witness: the one-element sample 1/100 with alpha 1/20 yields
none. -/
theorem c3_witness :
    (([(1:ℚ)/100] : List ℚ).length < 2) ∧
      cornish_fisher_var id id [1/100] (1/20) = none :=
  ⟨by decide, c3_cornish_fisher_no_invalid_input_error id id [1/100] (1/20) (Or.inl (by decide))⟩

/-- C4: whenever every loss is at most the threshold - in particular
whenever the threshold sits at or above the sample maximum loss - the
excess set of pot_var is empty, and the code does NOT fail with a typed
InsufficientTailData error: the real call aborts with an untyped
exception (the GPD fit rejects an empty sample and the tail probability
divides by prob_exceed = 0), modelled as none. This theorem documents
the actual behaviour that contradicts the claim. -/
theorem c4_pot_var_zero_excesses_gives_nonfinite (fitK : List ℚ → ℚ × ℚ)
    (gBody : ℚ → ℚ → ℚ → ℚ) (returns : List ℚ) (th alpha : ℚ)
    (hmax : ∀ l ∈ potLosses returns, l ≤ th) :
    pot_var fitK gBody returns (some th) alpha = none := by
  have hex : potExcesses (potLosses returns) th = [] := by
    unfold potExcesses
    rw [List.filter_eq_nil_iff.mpr fun a ha => by simpa using hmax a ha, List.map_nil]
  simp [pot_var, potThreshold, hex]

/-- C4 witness: with returns 1/100 and -1/50 every loss is at most 1, and
pot_var at threshold 1 yields none. -/
theorem c4_witness :
    (∀ l ∈ potLosses [1/100, -1/50], l ≤ 1) ∧
      pot_var (fun _ => (1, 1)) (fun _ _ _ => 0) [1/100, -1/50] (some 1) (1/20) = none := by
  have h : ∀ l ∈ potLosses [(1:ℚ)/100, -1/50], l ≤ 1 := by norm_num [potLosses]
  exact ⟨h, c4_pot_var_zero_excesses_gives_nonfinite _ _ _ _ _ h⟩

/-- C5: for every nonempty sample with nonzero population variance and
every alpha in (0, 1), cornish_fisher_var returns exactly
-(mu + z_cf * sigma) with mu the sample mean, sigma the population
standard deviation (the hypotheses pin the square-root kernel to the
exact root of the second central moment), skew and excess kurtosis the
population standardized moments in the Fisher convention, z the normal
quantile kernel at alpha, and z_cf the Cornish-Fisher polynomial of the
spec - stated through cornishFisherSpecFormula, the formula transcribed
from the spec. -/
theorem c5_cornish_fisher_matches_spec_formula (sqrtK normBody : ℚ → ℚ)
    (returns : List ℚ) (alpha : ℚ)
    (hne : returns ≠ [])
    (ha : 0 < alpha ∧ alpha < 1)
    (hm2 : centralMoment 2 returns ≠ 0)
    (_hsig : sqrtK (centralMoment 2 returns) ^ 2 = centralMoment 2 returns ∧
      0 ≤ sqrtK (centralMoment 2 returns)) :
    cornish_fisher_var sqrtK normBody returns alpha =
      some (cornishFisherSpecFormula (cfMean returns)
        (sqrtK (centralMoment 2 returns))
        (centralMoment 3 returns / sqrtK (centralMoment 2 returns) ^ 3)
        (centralMoment 4 returns / centralMoment 2 returns ^ 2 - 3)
        (normBody alpha)) := by
  have hppf : norm_ppf normBody alpha = some (normBody alpha) := if_pos ha
  simp [cornish_fisher_var, hne, hppf, hm2, cornishFisherSpecFormula]

/-- C5 witness: the sample 1, -1 with alpha 1/2, the identity as exact
square-root kernel (the second central moment is 1) and the constant 0
as quantile kernel. -/
theorem c5_witness :
    (([(1:ℚ), -1] : List ℚ) ≠ [] ∧ (0:ℚ) < 1/2 ∧ (1:ℚ)/2 < 1 ∧
      centralMoment 2 [(1:ℚ), -1] ≠ 0 ∧
      id (centralMoment 2 [(1:ℚ), -1]) ^ 2 = centralMoment 2 [(1:ℚ), -1] ∧
      0 ≤ id (centralMoment 2 [(1:ℚ), -1])) ∧
    cornish_fisher_var id (fun _ => 0) [(1:ℚ), -1] (1/2) =
      some (cornishFisherSpecFormula (cfMean [(1:ℚ), -1])
        (id (centralMoment 2 [(1:ℚ), -1]))
        (centralMoment 3 [(1:ℚ), -1] / id (centralMoment 2 [(1:ℚ), -1]) ^ 3)
        (centralMoment 4 [(1:ℚ), -1] / centralMoment 2 [(1:ℚ), -1] ^ 2 - 3)
        ((fun _ => (0:ℚ)) (1/2))) := by
  have hm : centralMoment 2 [(1:ℚ), -1] = 1 := by norm_num [centralMoment, cfMean]
  refine ⟨⟨by simp, by norm_num, by norm_num, by rw [hm]; norm_num, by rw [hm]; norm_num,
    by rw [hm]; norm_num⟩, ?_⟩
  exact c5_cornish_fisher_matches_spec_formula id (fun _ => 0) [(1:ℚ), -1] (1/2) (by simp)
    (by norm_num) (by rw [hm]; norm_num) ⟨by simp [hm], by simp [hm]⟩

/-- C6: for a constant sample of at least 2 elements the code does NOT
return -k: the population variance is zero, so scipy skew and kurtosis
return NaN, NaN times sigma = 0 is still NaN, and the result is the
non-finite none instead of the finite -k the claim requires. This
theorem documents the actual behaviour that contradicts the claim. -/
theorem c6_cornish_fisher_constant_sample_nonfinite (sqrtK normBody : ℚ → ℚ)
    (k alpha : ℚ) (n : ℕ) (hn : 2 ≤ n) :
    cornish_fisher_var sqrtK normBody (List.replicate n k) alpha = none := by
  have hne : List.replicate n k ≠ [] := by
    intro h
    have hl := congrArg List.length h
    simp at hl
    omega
  have hm2 : centralMoment 2 (List.replicate n k) = 0 :=
    centralMoment_two_replicate n k (by omega)
  cases hppf : norm_ppf normBody alpha <;>
    simp [cornish_fisher_var, hne, hppf, hm2]

/-- C6 witness: two returns both 1/100 with alpha 1/20 yield none, not
-1/100. -/
theorem c6_witness :
    2 ≤ 2 ∧ cornish_fisher_var id id (List.replicate 2 (1/100)) (1/20) = none :=
  ⟨le_refl 2, c6_cornish_fisher_constant_sample_nonfinite id id (1/100) (1/20) 2 (le_refl 2)⟩

/-- C7: for every sample and every alpha, calling pot_var with no
threshold gives the same result as passing the 95th percentile of the
losses explicitly: the default rule is exactly that percentile and the
rest of the computation coincides. Holds for every fit and inverse CDF
kernel. -/
theorem c7_default_threshold_eq_explicit_percentile (fitK : List ℚ → ℚ × ℚ)
    (gBody : ℚ → ℚ → ℚ → ℚ) (returns : List ℚ) (alpha : ℚ) :
    pot_var fitK gBody returns none alpha =
      pot_var fitK gBody returns (some (percentile95 (potLosses returns))) alpha := rfl

/-- C8: with an explicit threshold, a nonempty excess set and a tail
probability in [0, 1), pot_var returns exactly
-(threshold + quantile), where the excesses are the losses strictly
above the threshold shifted by it, the tail probability is
(alpha - (1 - prob_exceed)) / prob_exceed, and the quantile is the GPD
inverse CDF kernel at that probability with the fitted shape and scale
and location 0. -/
theorem c8_pot_var_formula (fitK : List ℚ → ℚ × ℚ) (gBody : ℚ → ℚ → ℚ → ℚ)
    (returns : List ℚ) (th alpha : ℚ)
    (hex : potExcesses (potLosses returns) th ≠ [])
    (hp : 0 ≤ potTailProb returns th alpha ∧ potTailProb returns th alpha < 1) :
    pot_var fitK gBody returns (some th) alpha =
      some (-(th + gBody (potTailProb returns th alpha)
        (fitK (potExcesses (potLosses returns) th)).1
        (fitK (potExcesses (potLosses returns) th)).2)) := by
  simp [pot_var, potThreshold, hex, genpareto_ppf, hp]

/-- C8 witness: returns -1, -2, -3, -4 with threshold 2 and alpha 3/5
give excesses 1, 2, tail probability 1/5, and with the fit pinned to
shape 1 and scale 2 and the inverse CDF kernel p + c + s the result is
-(2 + (1/5 + 1 + 2)). -/
theorem c8_witness :
    (potExcesses (potLosses [-1, -2, -3, -4]) 2 ≠ [] ∧
      0 ≤ potTailProb [-1, -2, -3, -4] 2 (3/5) ∧
      potTailProb [-1, -2, -3, -4] 2 (3/5) < 1) ∧
    pot_var (fun _ => (1, 2)) (fun p c s => p + c + s) [-1, -2, -3, -4] (some 2) (3/5) =
      some (-(2 + (fun p c s => p + c + s) (potTailProb [-1, -2, -3, -4] 2 (3/5))
        ((fun _ => ((1:ℚ), (2:ℚ))) (potExcesses (potLosses [-1, -2, -3, -4]) 2)).1
        ((fun _ => ((1:ℚ), (2:ℚ))) (potExcesses (potLosses [-1, -2, -3, -4]) 2)).2)) := by
  have h1 : potExcesses (potLosses [(-1:ℚ), -2, -3, -4]) 2 ≠ [] := by
    have he : potExcesses (potLosses [(-1:ℚ), -2, -3, -4]) 2 = [1, 2] := by
      norm_num [potExcesses, potLosses]
    rw [he]; exact List.cons_ne_nil _ _
  have h2 : (0:ℚ) ≤ potTailProb [-1, -2, -3, -4] 2 (3/5) ∧
      potTailProb [(-1:ℚ), -2, -3, -4] 2 (3/5) < 1 := by
    norm_num [potTailProb, potExcesses, potLosses]
  exact ⟨⟨h1, h2.1, h2.2⟩, c8_pot_var_formula _ _ _ _ _ h1 h2⟩

/-- C9: both estimators are deterministic pure functions: two
invocations on identical inputs (and identical numerical kernels)
produce identical results. In this embedding purity is structural - the
definitions transcribe the code, which mutates nothing, touches no
global state and draws no randomness; its only collaborators are the
deterministic numerical kernels the theorem quantifies over. -/
theorem c9_deterministic_pure (sqrtK normBody : ℚ → ℚ) (fitK : List ℚ → ℚ × ℚ)
    (gBody : ℚ → ℚ → ℚ → ℚ) (r r2 : List ℚ) (a a2 : ℚ) (t t2 : Option ℚ)
    (hr : r = r2) (ha : a = a2) (ht : t = t2) :
    cornish_fisher_var sqrtK normBody r a = cornish_fisher_var sqrtK normBody r2 a2 ∧
      pot_var fitK gBody r t a = pot_var fitK gBody r2 t2 a2 := by
  subst hr; subst ha; subst ht; exact ⟨rfl, rfl⟩

/-- C9 witness: the two estimators repeated on the one-return sample 1
with alpha 1/20. -/
theorem c9_witness :
    ([(1:ℚ)] = [(1:ℚ)]) ∧
      cornish_fisher_var id id [1] (1/20) = cornish_fisher_var id id [1] (1/20) ∧
      pot_var (fun _ => (1, 1)) (fun _ _ _ => 0) [1] none (1/20) =
        pot_var (fun _ => (1, 1)) (fun _ _ _ => 0) [1] none (1/20) := by
  have h := c9_deterministic_pure id id (fun _ => (1, 1)) (fun _ _ _ => 0) [1] [1]
    (1/20) (1/20) none none rfl rfl rfl
  exact ⟨rfl, h.1, h.2⟩

/-- C10: every element of the excess list handed to the GPD fit is
strictly positive: an excess is l - threshold for a loss l strictly
greater than the threshold, so the fit data lies in the support of a
location-0 GPD. -/
theorem c10_excesses_strictly_positive (losses : List ℚ) (th x : ℚ)
    (hx : x ∈ potExcesses losses th) : 0 < x := by
  rcases List.mem_map.mp hx with ⟨l, hl, rfl⟩
  have hlt : th < l := of_decide_eq_true (List.mem_filter.mp hl).2
  linarith

/-- C10 witness: for the loss list with single entry 2 and threshold 1
the excess 1 is a member and is positive. -/
theorem c10_witness : (1:ℚ) ∈ potExcesses [2] 1 ∧ (0:ℚ) < 1 :=
  ⟨by norm_num [potExcesses], c10_excesses_strictly_positive [2] 1 1 (by norm_num [potExcesses])⟩

end PortRisk
